import Mathlib

/-!
# editz: a visudo-like edit / validate / commit prompt

Shallow embedding of `src/editz/editz.go` and the properties of its
specification.

* Part 1 embeds the default-editor resolution (`getDefaultEditor`) and the
  external-command editor (`ShellEditor`).
* Part 2 embeds the edit orchestrator (`Edit`) over an explicit file system,
  with Go's panic / defer / recover control flow made explicit.

Go strings are modelled as lists of Unicode code points (`GoString`), byte
slices as lists of bytes.
-/

namespace editz

/-! ## Part 1: strings, environment, default editor -/

/-- A Go string, as its sequence of code points (valid UTF-8 is assumed). -/
abbrev GoString := List Char

namespace unicode

/-- Go's `unicode.IsSpace`: the Latin-1 spaces `\t \n \v \f \r`, space, U+0085,
U+00A0, and beyond Latin-1 the code points with the White_Space property. -/
def IsSpace (r : Char) : Bool :=
  let n := r.toNat
  if n ≤ 0xFF then
    n == 0x09 || n == 0x0A || n == 0x0B || n == 0x0C || n == 0x0D || n == 0x20
      || n == 0x85 || n == 0xA0
  else
    n == 0x1680 || (0x2000 ≤ n && n ≤ 0x200A) || n == 0x2028 || n == 0x2029
      || n == 0x202F || n == 0x205F || n == 0x3000

end unicode

namespace strings

/-- Go's `strings.Split(s, sep)` for a one-character separator: the pieces of
`s` between the occurrences of `sep`; one more piece than there are
separators, so `Split "" sep` is the single empty piece. -/
def Split : GoString → Char → List GoString
  | [], _ => [[]]
  | c :: cs, sep =>
    if c = sep then [] :: Split cs sep
    else
      match Split cs sep with
      | [] => [[c]]
      | p :: ps => (c :: p) :: ps

/-- Go's `strings.TrimLeftFunc`: drop the leading code points satisfying `f`. -/
def TrimLeftFunc : GoString → (Char → Bool) → GoString
  | [], _ => []
  | c :: cs, f => if f c then TrimLeftFunc cs f else c :: cs

/-- Go's `strings.TrimRightFunc`: drop the trailing code points satisfying `f`. -/
def TrimRightFunc : GoString → (Char → Bool) → GoString
  | [], _ => []
  | c :: cs, f =>
    match TrimRightFunc cs f with
    | [] => if f c then [] else [c]
    | r :: rs => c :: r :: rs

/-- Go's `strings.TrimSpace`: `TrimFunc(s, unicode.IsSpace)`. -/
def TrimSpace (s : GoString) : GoString :=
  TrimRightFunc (TrimLeftFunc s unicode.IsSpace) unicode.IsSpace

end strings

namespace os

/-- Go's `os.Getenv` for one variable: the value, or the empty string when the
variable is unset (`none`). -/
def Getenv (v : Option GoString) : GoString :=
  match v with
  | some s => s
  | none => []

end os

/-- The type `ShellEditor` of editz.go: the command and parameters to open a
text editor. -/
structure ShellEditor where
  Command : GoString
  Params : List GoString
  deriving DecidableEq, Repr

/-- One iteration of the `for _, part := range parts` loop of
`getDefaultEditor` (editz.go lines 47-52). -/
def appendGoodPart (goodParts : List GoString) (part : GoString) : List GoString :=
  let part := strings.TrimSpace part
  if part ≠ [] then goodParts ++ [part] else goodParts

/-- The function `getDefaultEditor` of editz.go (lines 42-66), as a function
of the value of the `EDITOR` environment variable (`none`: unset). -/
def getDefaultEditor (EDITOR : Option GoString) : ShellEditor :=
  let osEditor := os.Getenv EDITOR
  if osEditor ≠ [] then
    let parts := strings.Split osEditor ' '
    let goodParts := parts.foldl appendGoodPart []
    match goodParts with
    | g :: gs => { Command := g, Params := gs }
    | [] => { Command := "vi".toList, Params := [] }
  else
    { Command := "vi".toList, Params := [] }

/-- Reference tokenisation, following the specification's words: split the
value on the single space character, trim surrounding whitespace from each
piece, discard the empty pieces, keep the order. -/
def referenceTokens (v : GoString) : List GoString :=
  ((List.splitOn ' ' v).map
    (fun piece => (piece.dropWhile unicode.IsSpace).rdropWhile unicode.IsSpace)).filter
    (fun piece => piece ≠ [])

/-- Reference default-editor resolution, following the specification's words:
the first token is the command and the rest are the parameters; an unset,
empty or blank value falls back to `vi` with no parameters. -/
def referenceDefaultEditor (EDITOR : Option GoString) : ShellEditor :=
  match EDITOR with
  | none => { Command := "vi".toList, Params := [] }
  | some v =>
    match referenceTokens v with
    | [] => { Command := "vi".toList, Params := [] }
    | t :: ts => { Command := t, Params := ts }

/-- A run of `k` space characters. -/
def spaces (k : Nat) : GoString := List.replicate k ' '

/-- An `EDITOR` value written from tokens: `lead` spaces, the first token,
then each further token preceded by `gap + 1` spaces, then `trail` spaces. -/
def joinTokens (lead : Nat) (first : GoString) (rest : List (Nat × GoString))
    (trail : Nat) : GoString :=
  spaces lead ++ first ++ (rest.map (fun p => spaces (p.1 + 1) ++ p.2)).flatten ++ spaces trail

/-- A token that survives the parse unchanged: non-empty, without a space
character, and with neither leading nor trailing whitespace. -/
def GoodToken (t : GoString) : Prop :=
  t ≠ [] ∧ ' ' ∉ t ∧ (∀ c, t.head? = some c → unicode.IsSpace c = false)
    ∧ (∀ c, t.getLast? = some c → unicode.IsSpace c = false)

/-! ## Part 2: errors, panics, file system -/

/-- A Go byte slice's contents. -/
abbrev Bytes := List (Fin 256)

/-- A Go `error` value: either an error made outside the errorz package (for
instance by `fmt.Errorf` or by the operating system), or an errorz wrapper,
which records a call site around the error it wraps. -/
inductive GoError where
  | plain (msg : GoString)
  | wrapped (orig : GoError)
  deriving DecidableEq, Repr

/-- The method `Error()`: the message. A wrapper carries the message of the
error it wraps. -/
def GoError.Error : GoError → GoString
  | .plain msg => msg
  | .wrapped orig => orig.Error

/-- A non-nil value handed to Go's `panic`: an `error`, or any other value,
given by its `%v` rendering. -/
inductive PanicValue where
  | error (e : GoError)
  | value (text : GoString)
  deriving DecidableEq, Repr

/-- The steps of one call of `Edit` that can fail. -/
inductive Step where
  | stat
  | readTarget
  | createTemp
  | populateTemp
  | editor
  | readTemp
  | validate
  | writeTarget
  | removeTemp
  deriving DecidableEq, Repr

/-- A panic in flight: the value, and (as ghost information) the step which
raised it. -/
structure Panic where
  value : PanicValue
  origin : Step
  deriving DecidableEq, Repr

namespace errorz

/-- Modelled from the spec: `errorz.Wrap` of github.com/ibrt/golang-errors
(not part of this repository). It wraps an error, recording the call site.
`Edit` wraps a validation error twice (editz.go lines 101 and 81) and unwraps
it once (line 84), and the result is the validation error itself; so wrappers
do not nest: an error which already is a wrapper is kept as it is. -/
def Wrap (e : GoError) : GoError :=
  match e with
  | .wrapped orig => .wrapped orig
  | .plain msg => .wrapped (.plain msg)

/-- Modelled from the spec: `errorz.Unwrap` (same package) undoes `Wrap`,
returning the underlying error. -/
def Unwrap (e : GoError) : GoError :=
  match e with
  | .wrapped orig => orig
  | .plain msg => .plain msg

/-- Modelled from the spec: `errorz.MaybeMustWrap` (same package) does
nothing for a nil error and otherwise panics with the wrapped error. The
result is the panic value raised, if any. -/
def MaybeMustWrap (err : Option GoError) : Option PanicValue :=
  err.map (fun e => PanicValue.error (Wrap e))

/-- Modelled from the spec: `errorz.MaybeWrapRecover` (same package) turns
the value returned by `recover()` into a wrapped error: nil stays nil, an
error is wrapped, any other value becomes a new error with the rendering of
the value as message. -/
def MaybeWrapRecover (r : Option PanicValue) : Option GoError :=
  match r with
  | none => none
  | some (.error e) => some (Wrap e)
  | some (.value text) => some (Wrap (.plain text))

end errorz

/-- A regular file: its bytes and its permission mode. -/
structure File where
  contents : Bytes
  mode : Nat
  deriving DecidableEq, Repr

/-- The file system: the file found at each path, if any. -/
abbrev FileSystem := GoString → Option File

/-- Put file `f` at `path`. -/
def FileSystem.put (fs : FileSystem) (path : GoString) (f : File) : FileSystem :=
  fun p => if p = path then some f else fs p

/-- Unlink `path`. -/
def FileSystem.unlink (fs : FileSystem) (path : GoString) : FileSystem :=
  fun p => if p = path then none else fs p

/-- One executed step: which step, on which path, with which bytes (the bytes
read, written, shown to the editor or validated), and whether it failed. -/
structure Event where
  step : Step
  path : GoString
  data : Bytes
  failed : Bool
  deriving DecidableEq, Repr

/-- The state threaded through a call: the file system and the steps executed
so far, oldest first. -/
structure World where
  fs : FileSystem
  trace : List Event

/-- Append an event to the trace. -/
def World.log (w : World) (ev : Event) : World :=
  { w with trace := w.trace ++ [ev] }

/-- What one run of an editor does to the file it is given: the bytes it
leaves in the file, and the value it panics with, if it fails abruptly. -/
structure EditorRun where
  contents : Bytes
  panic : Option PanicValue
  deriving DecidableEq, Repr

/-- The interface `Editor` of editz.go: `Edit(filePath string)`. An editor
acts on the file whose path it is given: from the path and the bytes found
there (`none`: no such file) it yields an `EditorRun`. -/
abbrev Editor := GoString → Option Bytes → EditorRun

/-- What a call of `validateFunc` does: return nil, return an error, or panic. -/
inductive ValidateOutcome where
  | ok
  | err (e : GoError)
  | panic (v : PanicValue)
  deriving DecidableEq, Repr

/-- Failures injected into the operating-system calls of one call of `Edit`
(`none`: the call behaves normally). A failed population of the temporary
file leaves some bytes in it; a failed write of the target leaves the target
untouched (`none`) or holding some bytes. -/
structure Faults where
  stat : Option GoError
  readTarget : Option GoError
  createTemp : Option GoError
  populateTemp : Option (GoError × Bytes)
  readTemp : Option GoError
  writeTarget : Option (GoError × Option Bytes)
  removeTemp : Option GoError

/-- No injected failure. -/
def Faults.none : Faults :=
  { stat := Option.none, readTarget := Option.none, createTemp := Option.none,
    populateTemp := Option.none, readTemp := Option.none, writeTarget := Option.none,
    removeTemp := Option.none }

/-- The environment of one call of `Edit`: the process-wide `DefaultEditor`,
the fresh name `ioutil.TempFile` picks, and the injected failures. -/
structure Env where
  DefaultEditor : Editor
  tmpPath : GoString
  faults : Faults

/-- The error of a path that does not exist. -/
def errNotExist : GoError := .plain "no such file or directory".toList

/-- The error of a path that exists already. -/
def errExist : GoError := .plain "file exists".toList

namespace os

/-- Go's `os.Stat`, reduced to the permission mode: the mode of the file at
`path`, or an error. -/
def Stat (fault : Option GoError) (path : GoString) (w : World) :
    World × Except GoError Nat :=
  match fault with
  | some e => (w.log ⟨.stat, path, [], true⟩, .error e)
  | none =>
    match w.fs path with
    | none => (w.log ⟨.stat, path, [], true⟩, .error errNotExist)
    | some f => (w.log ⟨.stat, path, [], false⟩, .ok f.mode)

/-- Go's `os.Remove` of a file. -/
def Remove (fault : Option GoError) (path : GoString) (w : World) :
    World × Option GoError :=
  match fault with
  | some e => (w.log ⟨.removeTemp, path, [], true⟩, some e)
  | none =>
    match w.fs path with
    | none => (w.log ⟨.removeTemp, path, [], true⟩, some errNotExist)
    | some _ =>
      ({ w with fs := w.fs.unlink path }.log ⟨.removeTemp, path, [], false⟩, none)

end os

namespace ioutil

/-- Go's `ioutil.WriteFile(filename, data, perm)`: truncate the file and write
`data`; `perm` is used only when the file has to be created. -/
def WriteFile (fault : Option (GoError × Option Bytes)) (filename : GoString)
    (data : Bytes) (perm : Nat) (w : World) : World × Option GoError :=
  let mode := match w.fs filename with
    | some f => f.mode
    | none => perm
  match fault with
  | some (e, none) => (w.log ⟨.writeTarget, filename, data, true⟩, some e)
  | some (e, some residue) =>
    ({ w with fs := w.fs.put filename ⟨residue, mode⟩ }.log
      ⟨.writeTarget, filename, data, true⟩, some e)
  | none =>
    ({ w with fs := w.fs.put filename ⟨data, mode⟩ }.log
      ⟨.writeTarget, filename, data, false⟩, none)

end ioutil

namespace filez

/-- Modelled from the spec: `filez.MustReadFile` of
github.com/ibrt/golang-bites (not part of this repository) reads the whole
file and panics on failure. `site` tells the two calls in `Edit` apart. The
result is the bytes read, or the panic raised. -/
def MustReadFile (site : Step) (fault : Option GoError) (path : GoString) (w : World) :
    World × Except Panic Bytes :=
  match fault with
  | some e => (w.log ⟨site, path, [], true⟩, .error ⟨.error (errorz.Wrap e), site⟩)
  | none =>
    match w.fs path with
    | none => (w.log ⟨site, path, [], true⟩, .error ⟨.error (errorz.Wrap errNotExist), site⟩)
    | some f => (w.log ⟨site, path, f.contents, false⟩, .ok f.contents)

/-- Modelled from the spec: `filez.MustWriteTempFile` (same package) creates
a new, uniquely named temporary file (mode 0600, as `ioutil.TempFile` does),
writes `contents` to it and returns its path; it panics when the file cannot
be created or populated. -/
def MustWriteTempFile (env : Env) (_pattern : GoString) (contents : Bytes) (w : World) :
    World × Except Panic GoString :=
  match env.faults.createTemp with
  | some e =>
    (w.log ⟨.createTemp, env.tmpPath, [], true⟩, .error ⟨.error (errorz.Wrap e), .createTemp⟩)
  | none =>
    match w.fs env.tmpPath with
    | some _ =>
      (w.log ⟨.createTemp, env.tmpPath, [], true⟩,
        .error ⟨.error (errorz.Wrap errExist), .createTemp⟩)
    | none =>
      let w := { w with fs := w.fs.put env.tmpPath ⟨[], 0o600⟩ }.log
        ⟨.createTemp, env.tmpPath, [], false⟩
      match env.faults.populateTemp with
      | some (e, residue) =>
        ({ w with fs := w.fs.put env.tmpPath ⟨residue, 0o600⟩ }.log
            ⟨.populateTemp, env.tmpPath, contents, true⟩,
          .error ⟨.error (errorz.Wrap e), .populateTemp⟩)
      | none =>
        ({ w with fs := w.fs.put env.tmpPath ⟨contents, 0o600⟩ }.log
            ⟨.populateTemp, env.tmpPath, contents, false⟩,
          .ok env.tmpPath)

end filez

/-- The named results of `Edit`; `contents = none` is the nil slice and
`err = none` the nil error. -/
structure Results where
  contents : Option Bytes
  isChanged : Bool
  err : Option GoError
  deriving DecidableEq, Repr

namespace filez

/-- Modelled from the spec: `filez.WithMustWriteTempFile` (same package)
writes a temporary file, calls `f` with its path, and removes the file when
`f` exits, normally or by a panic; a failed removal panics, and that panic
replaces the one in flight. `f` acts on the world and on the named results
captured by the closure, and yields the panic it raises, if any. -/
def WithMustWriteTempFile (env : Env) (pattern : GoString) (contents : Bytes)
    (f : GoString → World → Results → World × Results × Option Panic)
    (w : World) (r : Results) : World × Results × Option Panic :=
  match MustWriteTempFile env pattern contents w with
  | (w, .error p) => (w, r, some p)
  | (w, .ok filePath) =>
    match f filePath w r with
    | (w, r, p) =>
      match os.Remove env.faults.removeTemp filePath w with
      | (w, some e) => (w, r, some ⟨.error (errorz.Wrap e), .removeTemp⟩)
      | (w, none) => (w, r, p)

end filez

/-! ## Part 3: the editors and the edit orchestrator -/

namespace shellz

/-- The standard streams of the calling process. -/
inductive Stream where
  | osStdin
  | osStdout
  | osStderr
  deriving DecidableEq, Repr

/-- Modelled from the spec: the command builder of
github.com/ibrt/golang-shell (not part of this repository): the program, its
arguments in order, whether the command line is logged, and the streams the
child process is connected to. -/
structure Command where
  cmd : GoString
  params : List GoString
  logf : Bool
  stdin : Option Stream
  stdout : Option Stream
  stderr : Option Stream
  deriving DecidableEq, Repr

/-- Modelled from the spec: `shellz.NewCommand(cmd)`, a command without
arguments. -/
def NewCommand (cmd : GoString) : Command :=
  { cmd := cmd, params := [], logf := true, stdin := none, stdout := none, stderr := none }

/-- Modelled from the spec: `AddParamsString` appends arguments, in order,
after those already present. -/
def Command.AddParamsString (c : Command) (params : List GoString) : Command :=
  { c with params := c.params ++ params }

/-- Modelled from the spec: `SetLogf(nil)` turns logging off. -/
def Command.SetLogfNil (c : Command) : Command := { c with logf := false }

/-- Modelled from the spec: `SetStdin`. -/
def Command.SetStdin (c : Command) (s : Stream) : Command := { c with stdin := some s }

/-- Modelled from the spec: `SetStdout`. -/
def Command.SetStdout (c : Command) (s : Stream) : Command := { c with stdout := some s }

/-- Modelled from the spec: `SetStderr`. -/
def Command.SetStderr (c : Command) (s : Stream) : Command := { c with stderr := some s }

/-- The argument vector of the process a command launches: the program, then
the arguments. -/
def Command.argv (c : Command) : List GoString := c.cmd :: c.params

/-- What running an external program does to the file an editor was given:
the bytes left in the file, and the error of a failed launch or of a failing
exit status. -/
structure ProcessRun where
  contents : Bytes
  err : Option GoError
  deriving DecidableEq, Repr

/-- The operating system's execution of commands, seen from the file being
edited. -/
abbrev Exec := Command → Option Bytes → ProcessRun

/-- Modelled from the spec: `MustRun` launches the command, waits for it, and
panics when it cannot be launched or exits with a failing status. -/
def Command.MustRun (c : Command) (exec : Exec) (file : Option Bytes) : EditorRun :=
  let run := exec c file
  { contents := run.contents, panic := errorz.MaybeMustWrap run.err }

end shellz

/-- The command on which `ShellEditor.Edit` calls `MustRun` (editz.go lines
27-33). -/
def ShellEditor.command (e : ShellEditor) (filePath : GoString) : shellz.Command :=
  ((((((shellz.NewCommand e.Command).AddParamsString e.Params).AddParamsString
    [filePath]).SetLogfNil).SetStdin .osStdin).SetStdout .osStdout).SetStderr .osStderr

/-- The method `ShellEditor.Edit` of editz.go (lines 26-35): it runs the
editor; with the operating system `exec` it is an `Editor`. -/
def ShellEditor.Edit (e : ShellEditor) (exec : shellz.Exec) : Editor :=
  fun filePath file => (e.command filePath).MustRun exec file

/-- The call `DefaultEditor.Edit(tmpFilePath)` (editz.go line 93): the editor
sees the bytes of the file at the path and leaves its own there; the result
is the panic it raises, if any. -/
def callEditor (editor : Editor) (filePath : GoString) (w : World) :
    World × Option Panic :=
  let seen := (w.fs filePath).map File.contents
  let run := editor filePath seen
  let mode := match w.fs filePath with
    | some f => f.mode
    | none => 0o644
  ({ w with fs := w.fs.put filePath ⟨run.contents, mode⟩ }.log
      ⟨.editor, filePath, seen.getD [], run.panic.isSome⟩,
    run.panic.map (fun v => ⟨v, .editor⟩))

/-- The call `errorz.MaybeMustWrap(validateFunc(newBuf), ...)` (editz.go line
101): the result is the panic raised, by `validateFunc` itself or for the
error it returns, if any. -/
def callValidate (validateFunc : Bytes → ValidateOutcome) (newBuf : Bytes) (w : World) :
    World × Option Panic :=
  match validateFunc newBuf with
  | .ok => (w.log ⟨.validate, [], newBuf, false⟩, none)
  | .err e =>
    (w.log ⟨.validate, [], newBuf, true⟩,
      (errorz.MaybeMustWrap (some e)).map (fun v => ⟨v, .validate⟩))
  | .panic v => (w.log ⟨.validate, [], newBuf, true⟩, some ⟨v, .validate⟩)

/-- The closure `Edit` passes to `filez.WithMustWriteTempFile` (editz.go
lines 92-106). It assigns the named results `contents` and `isChanged`. -/
def Edit.closure (env : Env) (filePath : GoString) (validateFunc : Bytes → ValidateOutcome)
    (statMode : Nat) (origBuf : Bytes) (tmpFilePath : GoString) (w : World) (r : Results) :
    World × Results × Option Panic :=
  match callEditor env.DefaultEditor tmpFilePath w with
  | (w, some p) => (w, r, some p)
  | (w, none) =>
    match filez.MustReadFile .readTemp env.faults.readTemp tmpFilePath w with
    | (w, .error p) => (w, r, some p)
    | (w, .ok newBuf) =>
      if origBuf = newBuf then
        (w, { r with contents := some newBuf }, none)
      else
        match callValidate validateFunc newBuf w with
        | (w, some p) => (w, r, some p)
        | (w, none) =>
          match ioutil.WriteFile env.faults.writeTarget filePath newBuf statMode w with
          | (w, some e) =>
            (w, r, (errorz.MaybeMustWrap (some e)).map (fun v => ⟨v, .writeTarget⟩))
          | (w, none) => (w, { r with contents := some newBuf, isChanged := true }, none)

/-- The body of `Edit` (editz.go lines 88-108), before the deferred function
runs. -/
def Edit.body (env : Env) (filePath : GoString) (validateFunc : Bytes → ValidateOutcome)
    (w : World) (r : Results) : World × Results × Option Panic :=
  match os.Stat env.faults.stat filePath w with
  | (w, .error e) =>
    ( w, { r with err := some e },
      (errorz.MaybeMustWrap (some e)).map (fun v => ⟨v, .stat⟩))
  | (w, .ok statMode) =>
    match filez.MustReadFile .readTarget env.faults.readTarget filePath w with
    | (w, .error p) => (w, r, some p)
    | (w, .ok origBuf) =>
      filez.WithMustWriteTempFile env "golang-edit-prompt".toList origBuf
        (Edit.closure env filePath validateFunc statMode origBuf) w r

/-- What a call of `Edit` leaves behind: the three results returned, the
panic propagated to the caller (if any), the final file system and the trace
of the steps executed, and (as ghost information) the step whose failure the
deferred function recovered. -/
structure EditReturn where
  contents : Option Bytes
  isChanged : Bool
  err : Option GoError
  propagated : Option Panic
  fs : FileSystem
  trace : List Event
  cause : Option Step

/-- The function `Edit` of editz.go (lines 79-109): the body, then the
deferred function (lines 80-86), which calls `recover()`, so that no panic
stays in flight, and on a recovered panic resets the named results. -/
def Edit (env : Env) (filePath : GoString) (validateFunc : Bytes → ValidateOutcome)
    (fs : FileSystem) : EditReturn :=
  match Edit.body env filePath validateFunc ⟨fs, []⟩ ⟨none, false, none⟩ with
  | (w, r, p) =>
    match errorz.MaybeWrapRecover (p.map Panic.value) with
    | some rErr =>
      { contents := none, isChanged := false, err := some (errorz.Unwrap rErr),
        propagated := none, fs := w.fs, trace := w.trace, cause := p.map Panic.origin }
    | none =>
      { contents := r.contents, isChanged := r.isChanged, err := r.err,
        propagated := none, fs := w.fs, trace := w.trace, cause := none }

/-- The trace holds a failed step. -/
def anyStepFailed (trace : List Event) : Bool :=
  trace.any (fun ev => ev.failed)

/-- The trace holds a successful run of `step`. -/
def stepSucceeded (trace : List Event) (step : Step) : Bool :=
  trace.any (fun ev => ev.step = step && !ev.failed)

/-- The trace holds a failed run of `step`. -/
def stepFailed (trace : List Event) (step : Step) : Bool :=
  trace.any (fun ev => ev.step = step && ev.failed)

/-- The number of calls of `validateFunc` in the trace. -/
def validateCalls (trace : List Event) : Nat :=
  (trace.filter (fun ev => ev.step = .validate)).length

/-- The writes issued to `path` in the trace. -/
def writesTo (trace : List Event) (path : GoString) : List Event :=
  trace.filter (fun ev => ev.step = .writeTarget && ev.path = path)

/-- The runs of the editor in the trace. -/
def editorRuns (trace : List Event) : List Event :=
  trace.filter (fun ev => ev.step = .editor)

/-! ## Part 4: settings and scenarios used by the theorems -/

/-- The setting of a call that gets as far as running the editor: the target
holds bytes `o` with mode `m`, the name of the temporary file is fresh, and
neither the stat and the read of the target nor the creation and the
population of the temporary file fail. -/
def Ready (env : Env) (filePath : GoString) (fs : FileSystem) (o : Bytes) (m : Nat) : Prop :=
  fs filePath = some ⟨o, m⟩ ∧ fs env.tmpPath = none ∧ env.faults.stat = none
    ∧ env.faults.readTarget = none ∧ env.faults.createTemp = none
    ∧ env.faults.populateTemp = none

/-- The facts about one call of `Edit` from which the properties of the
failure shape, of the frame of the target and of the cleanup of the temporary
file follow. -/
def Summary (env : Env) (filePath : GoString) (validateFunc : Bytes → ValidateOutcome)
    (fs : FileSystem) (r : EditReturn) : Prop :=
  r.propagated = none
  ∧ anyStepFailed r.trace = r.cause.isSome
  ∧ (r.cause.isSome = true → r.contents = none ∧ r.isChanged = false ∧ r.err.isSome = true)
  ∧ (writesTo r.trace filePath = [] → r.fs filePath = fs filePath)
  ∧ (stepFailed r.trace .createTemp = true ∨ stepFailed r.trace .populateTemp = true →
      writesTo r.trace filePath = [])
  ∧ (writesTo r.trace filePath ≠ [] →
      ∃ o m n failed, fs filePath = some ⟨o, m⟩ ∧ n ≠ o
        ∧ env.DefaultEditor env.tmpPath (some o) = ⟨n, none⟩
        ∧ validateFunc n = .ok
        ∧ writesTo r.trace filePath = [⟨.writeTarget, filePath, n, failed⟩]
        ∧ (failed = false → r.fs filePath = some ⟨n, m⟩))
  ∧ (stepSucceeded r.trace .createTemp = true →
      env.tmpPath ≠ filePath
      ∧ (r.fs env.tmpPath = none ↔
          stepFailed r.trace .populateTemp = false ∧ stepFailed r.trace .removeTemp = false)
      ∧ ∃ o m, fs filePath = some ⟨o, m⟩
          ∧ (∀ ev ∈ editorRuns r.trace, ev.path = env.tmpPath ∧ ev.data = o)
          ∧ (stepFailed r.trace .populateTemp = false →
              ∃ failed, editorRuns r.trace = [⟨.editor, env.tmpPath, o, failed⟩]))

/-- A file system holding one file, `"f"`, with bytes 1 2 and mode 0640. -/
def demoFs : FileSystem :=
  fun p => if p = "f".toList then some ⟨[1, 2], 0o640⟩ else none

/-- An editor which leaves the bytes 1 2 3. -/
def demoEditorChange : Editor := fun _ _ => ⟨[1, 2, 3], none⟩

/-- An editor which leaves the file as it found it. -/
def demoEditorKeep : Editor := fun _ seen => ⟨seen.getD [], none⟩

/-- An editor which writes a byte and then panics with an errorz error, as
the editor of `TestEdit_Err_Panic` does. -/
def demoEditorPanic : Editor :=
  fun _ _ => ⟨[9], some (.error (.wrapped (.plain "edit error".toList)))⟩

/-- A `validateFunc` which accepts everything. -/
def demoAccept : Bytes → ValidateOutcome := fun _ => .ok

/-- A `validateFunc` which rejects everything with the error `invalid`, as
the one of `TestEdit_Err_Invalid` does. -/
def demoReject : Bytes → ValidateOutcome := fun _ => .err (.plain "invalid".toList)

/-- A `validateFunc` which rejects everything with an errorz error. -/
def demoRejectWrapped : Bytes → ValidateOutcome :=
  fun _ => .err (.wrapped (.plain "invalid".toList))

/-- An environment without failures, with temporary name `"t"`. -/
def demoEnv (editor : Editor) : Env :=
  { DefaultEditor := editor, tmpPath := "t".toList, faults := Faults.none }

/-- The same environment, where the removal of the temporary file fails. -/
def demoEnvRemoveFails (editor : Editor) : Env :=
  { DefaultEditor := editor, tmpPath := "t".toList,
    faults := { Faults.none with removeTemp := some (.plain "remove failed".toList) } }

/-! ## Part 5: theorems -/

/-! ## Lemmas on the string primitives -/

theorem Split_ne_nil (s : GoString) (sep : Char) : strings.Split s sep ≠ [] := by
  induction s with
  | nil => simp [strings.Split]
  | cons c cs ih =>
    simp only [strings.Split]
    split
    · simp
    · split <;> simp

theorem Split_eq_splitOn (s : GoString) (sep : Char) :
    strings.Split s sep = List.splitOn sep s := by
  induction s with
  | nil => simp [strings.Split, List.splitOn]
  | cons c cs ih =>
    simp only [strings.Split, List.splitOn, List.splitOnP_cons]
    by_cases h : c = sep
    · subst h
      simp [ih, List.splitOn]
    · have hb : (c == sep) = false := by simpa using h
      simp only [h, hb, if_false, Bool.false_eq_true]
      rw [ih]
      simp only [List.splitOn]
      cases hs : List.splitOnP (fun x => x == sep) cs with
      | nil => exact absurd hs (List.splitOnP_ne_nil _ _)
      | cons p ps => simp [List.modifyHead]

theorem TrimLeftFunc_eq_dropWhile (s : GoString) (f : Char → Bool) :
    strings.TrimLeftFunc s f = s.dropWhile f := by
  induction s with
  | nil => simp [strings.TrimLeftFunc]
  | cons c cs ih =>
    simp only [strings.TrimLeftFunc, List.dropWhile_cons]
    split <;> simp_all

theorem TrimRightFunc_cons (c : Char) (cs : GoString) (f : Char → Bool) :
    strings.TrimRightFunc (c :: cs) f
      = match strings.TrimRightFunc cs f with
        | [] => if f c then [] else [c]
        | r :: rs => c :: r :: rs := rfl

theorem TrimRightFunc_concat (s : GoString) (a : Char) (f : Char → Bool) :
    strings.TrimRightFunc (s ++ [a]) f
      = if f a then strings.TrimRightFunc s f else s ++ [a] := by
  induction s with
  | nil => simp [strings.TrimRightFunc]
  | cons c cs ih =>
    rw [List.cons_append, TrimRightFunc_cons, ih]
    by_cases h : f a
    · simp only [h, if_true]
      rw [TrimRightFunc_cons]
    · simp only [h, if_false, Bool.false_eq_true]
      cases hs : cs ++ [a] with
      | nil => simp at hs
      | cons r rs => simp [← hs]

theorem TrimRightFunc_eq_rdropWhile (s : GoString) (f : Char → Bool) :
    strings.TrimRightFunc s f = s.rdropWhile f := by
  induction s using List.reverseRecOn with
  | nil => simp [strings.TrimRightFunc]
  | append_singleton l a ih =>
    rw [TrimRightFunc_concat, List.rdropWhile_concat, ih]

theorem foldl_appendGoodPart (parts acc : List GoString) :
    parts.foldl appendGoodPart acc
      = acc ++ (parts.map strings.TrimSpace).filter (fun piece => piece ≠ []) := by
  induction parts generalizing acc with
  | nil => simp
  | cons p ps ih =>
    simp only [List.foldl_cons, List.map_cons, ih, appendGoodPart]
    by_cases h : strings.TrimSpace p = []
    · simp [h]
    · simp [h, List.filter_cons]

theorem goodParts_eq_referenceTokens (v : GoString) :
    (strings.Split v ' ').foldl appendGoodPart [] = referenceTokens v := by
  rw [foldl_appendGoodPart, Split_eq_splitOn]
  simp only [referenceTokens, List.nil_append]
  congr 1
  apply List.map_congr_left
  intro p _
  simp [strings.TrimSpace, TrimLeftFunc_eq_dropWhile, TrimRightFunc_eq_rdropWhile]

theorem referenceTokens_nil : referenceTokens [] = [] := by
  decide

/-- C5. Default-editor resolution equals its reference definition: for every
state of the `EDITOR` variable (unset, or any value), `getDefaultEditor`
returns what the reference resolution returns, namely command = first token
and parameters = remaining tokens of the value split on the space character,
trimmed and with empty pieces discarded, and `vi` with no parameters when no
token remains or the variable is unset. -/
theorem getDefaultEditor_eq_reference (EDITOR : Option GoString) :
    getDefaultEditor EDITOR = referenceDefaultEditor EDITOR := by
  cases EDITOR with
  | none => simp [getDefaultEditor, referenceDefaultEditor, os.Getenv]
  | some v =>
    simp only [getDefaultEditor, referenceDefaultEditor, os.Getenv]
    by_cases hv : v = []
    · subst hv
      simp [referenceTokens_nil]
    · simp only [hv, ne_eq, not_false_eq_true, if_true, goodParts_eq_referenceTokens]
      cases referenceTokens v <;> rfl

/-- The three cases of `TestGetDefaultEditor`, and a value with a tab. -/
theorem getDefaultEditor_tests :
    getDefaultEditor (some "edit".toList) = { Command := "edit".toList, Params := [] }
    ∧ getDefaultEditor (some "   edit  -p  -a   ".toList)
        = { Command := "edit".toList, Params := ["-p".toList, "-a".toList] }
    ∧ getDefaultEditor none = { Command := "vi".toList, Params := [] }
    ∧ getDefaultEditor (some " \t ".toList) = { Command := "vi".toList, Params := [] }
    ∧ getDefaultEditor (some "edit\t-p".toList)
        = { Command := "edit\t-p".toList, Params := [] } := by
  decide

theorem Split_spaces_append (k : Nat) (s : GoString) :
    strings.Split (spaces k ++ s) ' ' = List.replicate k [] ++ strings.Split s ' ' := by
  induction k with
  | zero => simp [spaces]
  | succ k ih =>
    have : spaces (k + 1) ++ s = ' ' :: (spaces k ++ s) := by
      simp [spaces, List.replicate_succ]
    rw [this, strings.Split, if_pos rfl, ih, List.replicate_succ, List.cons_append]

theorem Split_token (t : GoString) (h : ' ' ∉ t) : strings.Split t ' ' = [t] := by
  induction t with
  | nil => rfl
  | cons c cs ih =>
    have hc : c ≠ ' ' := fun e => h (by simp [e])
    have hcs : ' ' ∉ cs := fun e => h (List.mem_cons_of_mem _ e)
    simp [strings.Split, hc, ih hcs]

theorem Split_token_space (t s : GoString) (h : ' ' ∉ t) :
    strings.Split (t ++ ' ' :: s) ' ' = t :: strings.Split s ' ' := by
  induction t with
  | nil => simp [strings.Split]
  | cons c cs ih =>
    have hc : c ≠ ' ' := fun e => h (by simp [e])
    have hcs : ' ' ∉ cs := fun e => h (List.mem_cons_of_mem _ e)
    simp [strings.Split, hc, ih hcs]

theorem TrimSpace_nil : strings.TrimSpace [] = [] := rfl

theorem TrimSpace_good (t : GoString) (h : GoodToken t) : strings.TrimSpace t = t := by
  obtain ⟨hne, -, hhead, hlast⟩ := h
  have hl : strings.TrimLeftFunc t unicode.IsSpace = t := by
    cases t with
    | nil => rfl
    | cons c cs =>
      have := hhead c rfl
      simp [strings.TrimLeftFunc, this]
  rw [strings.TrimSpace, hl, TrimRightFunc_eq_rdropWhile, List.rdropWhile_eq_self_iff]
  intro hl2
  have := hlast (t.getLast hl2) (List.getLast?_eq_getLast _ hl2)
  simp [this]

theorem goodParts_replicate_nil (k : Nat) (ps acc : List GoString) :
    (List.replicate k [] ++ ps).foldl appendGoodPart acc = ps.foldl appendGoodPart acc := by
  induction k with
  | zero => simp
  | succ k ih =>
    rw [List.replicate_succ, List.cons_append, List.foldl_cons]
    simpa [appendGoodPart, TrimSpace_nil] using ih

theorem goodParts_cons_good (t : GoString) (h : GoodToken t) (ps acc : List GoString) :
    (t :: ps).foldl appendGoodPart acc = ps.foldl appendGoodPart (acc ++ [t]) := by
  simp [appendGoodPart, TrimSpace_good t h, h.1]

theorem goodParts_spaces (k : Nat) (acc : List GoString) :
    (strings.Split (spaces k) ' ').foldl appendGoodPart acc = acc := by
  have := Split_spaces_append k []
  rw [List.append_nil] at this
  rw [this, goodParts_replicate_nil]
  simp [strings.Split, appendGoodPart, TrimSpace_nil]

theorem goodParts_token_tail (t : GoString) (ht : GoodToken t) (rest : List (Nat × GoString))
    (hrest : ∀ p ∈ rest, GoodToken p.2) (trail : Nat) (acc : List GoString) :
    (strings.Split (t ++ ((rest.map (fun p => spaces (p.1 + 1) ++ p.2)).flatten
        ++ spaces trail)) ' ').foldl appendGoodPart acc
      = acc ++ t :: rest.map Prod.snd := by
  induction rest generalizing t acc with
  | nil =>
    cases trail with
    | zero => simp [spaces, Split_token t ht.2.1, appendGoodPart, TrimSpace_good t ht, ht.1]
    | succ n =>
      have e : t ++ (([] : List (Nat × GoString)).map
          (fun p => spaces (p.1 + 1) ++ p.2)).flatten ++ spaces (n + 1)
          = t ++ ' ' :: spaces n := by
        simp [spaces, List.replicate_succ]
      simp only [List.map_nil, List.flatten_nil, List.nil_append] at e ⊢
      have e2 : t ++ spaces (n + 1) = t ++ ' ' :: spaces n := by
        simp [spaces, List.replicate_succ]
      rw [e2, Split_token_space t _ ht.2.1, goodParts_cons_good t ht, goodParts_spaces]
  | cons p rest ih =>
    have hp : GoodToken p.2 := hrest p (List.mem_cons_self _ _)
    have hr : ∀ q ∈ rest, GoodToken q.2 := fun q hq => hrest q (List.mem_cons_of_mem _ hq)
    have e : t ++ (((p :: rest).map (fun p => spaces (p.1 + 1) ++ p.2)).flatten ++ spaces trail)
        = t ++ ' ' :: (spaces p.1 ++ (p.2 ++ ((rest.map
            (fun p => spaces (p.1 + 1) ++ p.2)).flatten ++ spaces trail))) := by
      simp [spaces, List.replicate_succ]
    rw [e, Split_token_space t _ ht.2.1, goodParts_cons_good t ht, Split_spaces_append,
      goodParts_replicate_nil, ih p.2 hp hr]
    simp

/-- C10. Space-joined tokens parse back to themselves: for a first token and
further tokens that are all non-empty, free of space characters and without
leading or trailing whitespace, and an `EDITOR` value made of these tokens in
order, separated by one or more spaces, with any number of leading and
trailing spaces, `getDefaultEditor` returns the first token as the command and
the remaining tokens, in order, as the parameters. -/
theorem getDefaultEditor_joinTokens (lead trail : Nat) (first : GoString)
    (rest : List (Nat × GoString)) (hfirst : GoodToken first)
    (hrest : ∀ p ∈ rest, GoodToken p.2) :
    getDefaultEditor (some (joinTokens lead first rest trail))
      = { Command := first, Params := rest.map Prod.snd } := by
  have hne : joinTokens lead first rest trail ≠ [] := by
    intro h
    simp only [joinTokens, List.append_eq_nil] at h
    exact hfirst.1 h.1.1.2
  simp only [getDefaultEditor, os.Getenv, hne, ne_eq, not_false_eq_true, if_true]
  have e : joinTokens lead first rest trail
      = spaces lead ++ (first ++ ((rest.map (fun p => spaces (p.1 + 1) ++ p.2)).flatten
          ++ spaces trail)) := by
    simp [joinTokens]
  rw [e, Split_spaces_append, goodParts_replicate_nil,
    goodParts_token_tail first hfirst rest hrest trail []]
  rfl

/-- Witness for C10: the value of the test suite, `"   edit  -p  -a   "`, with
a tab inside the last token to show that a tab does not split. -/
theorem getDefaultEditor_joinTokens_witness :
    joinTokens 3 "edit".toList [(1, "-p".toList), (1, "-a\tb".toList)] 3
        = "   edit  -p  -a\tb   ".toList
      ∧ getDefaultEditor (some (joinTokens 3 "edit".toList
          [(1, "-p".toList), (1, "-a\tb".toList)] 3))
        = { Command := "edit".toList, Params := ["-p".toList, "-a\tb".toList] } :=
  ⟨by decide, getDefaultEditor_joinTokens 3 3 "edit".toList
    [(1, "-p".toList), (1, "-a\tb".toList)]
    (by refine ⟨by decide, by decide, ?_, ?_⟩ <;> intro c hc <;> simp at hc <;> subst hc <;> decide)
    (by
      intro p hp
      simp at hp
      rcases hp with rfl | rfl <;>
        (refine ⟨by decide, by decide, ?_, ?_⟩ <;> intro c hc <;> simp at hc <;> subst hc <;> decide))⟩

/-! ## The edit orchestrator -/

theorem Unwrap_Wrap_plain (msg : GoString) :
    errorz.Unwrap (errorz.Wrap (.plain msg)) = .plain msg := rfl

theorem Unwrap_Wrap_Error (e : GoError) :
    (errorz.Unwrap (errorz.Wrap e)).Error = e.Error := by
  cases e <;> rfl

theorem Ready_paths {env : Env} {filePath : GoString} {fs : FileSystem} {o : Bytes} {m : Nat}
    (h : Ready env filePath fs o m) : env.tmpPath ≠ filePath := by
  intro e
  have h1 := h.1
  have h2 := h.2.1
  rw [e] at h2
  rw [h2] at h1
  cases h1

/-- Amended C1. Commit correctness of `Edit`: the target holds bytes `o` with
mode `m`, the temporary file is created, populated and read back without
error, the editor returns normally leaving bytes `n ≠ o`, `validateFunc`
returns nil on `n` and the final write succeeds. Then the target holds
exactly `n` with mode still `m`; and if moreover the removal of the temporary
file succeeds, `Edit` returns `(n, true, nil)`. -/
theorem Edit_commit (env : Env) (filePath : GoString) (validateFunc : Bytes → ValidateOutcome)
    (fs : FileSystem) (o n : Bytes) (m : Nat)
    (hready : Ready env filePath fs o m) (hread : env.faults.readTemp = none)
    (hed : env.DefaultEditor env.tmpPath (some o) = ⟨n, none⟩) (hne : n ≠ o)
    (hval : validateFunc n = .ok) (hwrite : env.faults.writeTarget = none) :
    (Edit env filePath validateFunc fs).fs filePath = some ⟨n, m⟩
    ∧ (env.faults.removeTemp = none →
        (Edit env filePath validateFunc fs).contents = some n
        ∧ (Edit env filePath validateFunc fs).isChanged = true
        ∧ (Edit env filePath validateFunc fs).err = none) := by
  have hpath := Ready_paths hready
  obtain ⟨hf, ht, h1, h2, h3, h4⟩ := hready
  have hne2 : ¬ o = n := fun h => hne h.symm
  cases hrm : env.faults.removeTemp <;>
    simp [Edit, Edit.body, os.Stat, filez.MustReadFile, filez.WithMustWriteTempFile,
      filez.MustWriteTempFile, Edit.closure, callEditor, callValidate, ioutil.WriteFile,
      os.Remove, World.log, FileSystem.put, FileSystem.unlink, errorz.MaybeMustWrap,
      errorz.MaybeWrapRecover, writesTo, validateCalls, hpath.symm, *]

theorem demo_tmp_fresh : demoFs "t".toList = none := by decide

theorem demo_ready (editor : Editor) : Ready (demoEnv editor) "f".toList demoFs [1, 2] 0o640 :=
  ⟨by decide, demo_tmp_fresh, rfl, rfl, rfl, rfl⟩

/-- Witness for amended C1: the scenario of `TestEdit_Ok_Changed`. -/
theorem Edit_commit_witness :
    (Edit (demoEnv demoEditorChange) "f".toList demoAccept demoFs).fs "f".toList
        = some ⟨[1, 2, 3], 0o640⟩
    ∧ ((demoEnv demoEditorChange).faults.removeTemp = none →
        (Edit (demoEnv demoEditorChange) "f".toList demoAccept demoFs).contents = some [1, 2, 3]
        ∧ (Edit (demoEnv demoEditorChange) "f".toList demoAccept demoFs).isChanged = true
        ∧ (Edit (demoEnv demoEditorChange) "f".toList demoAccept demoFs).err = none) :=
  Edit_commit (demoEnv demoEditorChange) "f".toList demoAccept demoFs [1, 2] [1, 2, 3] 0o640
    (demo_ready _) rfl rfl (by decide) rfl rfl

/-- Counterexample to C1 as stated: the target holds bytes 1 2, the editor
returns normally leaving 1 2 3 in the temporary file, `validateFunc` returns
nil and the final write succeeds, but the removal of the temporary file fails:
the target holds 1 2 3, yet `Edit` returns `(nil, false, err)` with a non-nil
error instead of `(n, true, nil)`. -/
theorem Edit_commit_counterexample :
    demoFs "f".toList = some ⟨[1, 2], 0o640⟩
    ∧ (demoEnvRemoveFails demoEditorChange).DefaultEditor "t".toList (some [1, 2])
        = ⟨[1, 2, 3], none⟩
    ∧ demoAccept [1, 2, 3] = .ok
    ∧ stepSucceeded (Edit (demoEnvRemoveFails demoEditorChange) "f".toList demoAccept
        demoFs).trace .writeTarget = true
    ∧ (Edit (demoEnvRemoveFails demoEditorChange) "f".toList demoAccept demoFs).fs "f".toList
        = some ⟨[1, 2, 3], 0o640⟩
    ∧ (Edit (demoEnvRemoveFails demoEditorChange) "f".toList demoAccept demoFs).contents = none
    ∧ (Edit (demoEnvRemoveFails demoEditorChange) "f".toList demoAccept demoFs).isChanged = false
    ∧ (Edit (demoEnvRemoveFails demoEditorChange) "f".toList demoAccept demoFs).err
        = some (.plain "remove failed".toList) := by
  decide


/-- Amended C2. Validation-rejection safety of `Edit`: the target holds bytes
`o`, the temporary file is created, populated and read back without error,
the editor returns normally leaving bytes `n ≠ o` and `validateFunc` returns
the non-nil error `e` on `n`. Then `Edit` returns nil contents and
`isChanged = false`, issues no write to the target, and leaves the target as
it was; and if moreover the removal of the temporary file succeeds, the error
returned is the error underlying `e`: `e` itself when `e` is not an errorz
wrapper, the wrapped error otherwise, in both cases with the message of `e`. -/
theorem Edit_validation_rejected (env : Env) (filePath : GoString)
    (validateFunc : Bytes → ValidateOutcome) (fs : FileSystem) (o n : Bytes) (m : Nat)
    (e : GoError)
    (hready : Ready env filePath fs o m) (hread : env.faults.readTemp = none)
    (hed : env.DefaultEditor env.tmpPath (some o) = ⟨n, none⟩) (hne : n ≠ o)
    (hval : validateFunc n = .err e) :
    (Edit env filePath validateFunc fs).contents = none
    ∧ (Edit env filePath validateFunc fs).isChanged = false
    ∧ writesTo (Edit env filePath validateFunc fs).trace filePath = []
    ∧ (Edit env filePath validateFunc fs).fs filePath = some ⟨o, m⟩
    ∧ (env.faults.removeTemp = none →
        (Edit env filePath validateFunc fs).err = some (errorz.Unwrap (errorz.Wrap e))
        ∧ (∀ msg, e = .plain msg → (Edit env filePath validateFunc fs).err = some e)
        ∧ (Edit env filePath validateFunc fs).err.map GoError.Error = some e.Error) := by
  have hpath := Ready_paths hready
  obtain ⟨hf, ht, h1, h2, h3, h4⟩ := hready
  have hne2 : ¬ o = n := fun h => hne h.symm
  cases hrm : env.faults.removeTemp <;> cases e <;>
    simp [Edit, Edit.body, os.Stat, filez.MustReadFile, filez.WithMustWriteTempFile,
      filez.MustWriteTempFile, Edit.closure, callEditor, callValidate, ioutil.WriteFile,
      os.Remove, World.log, FileSystem.put, FileSystem.unlink, errorz.MaybeMustWrap,
      errorz.MaybeWrapRecover, writesTo, validateCalls, hpath.symm,
      errorz.Wrap, errorz.Unwrap, GoError.Error, *]

/-- Witness for amended C2: the scenario of `TestEdit_Err_Invalid`. -/
theorem Edit_validation_rejected_witness :
    (Edit (demoEnv demoEditorChange) "f".toList demoReject demoFs).contents = none
    ∧ (Edit (demoEnv demoEditorChange) "f".toList demoReject demoFs).isChanged = false
    ∧ writesTo (Edit (demoEnv demoEditorChange) "f".toList demoReject demoFs).trace "f".toList
        = []
    ∧ (Edit (demoEnv demoEditorChange) "f".toList demoReject demoFs).fs "f".toList
        = some ⟨[1, 2], 0o640⟩
    ∧ ((demoEnv demoEditorChange).faults.removeTemp = none →
        (Edit (demoEnv demoEditorChange) "f".toList demoReject demoFs).err
          = some (errorz.Unwrap (errorz.Wrap (.plain "invalid".toList)))
        ∧ (∀ msg, GoError.plain "invalid".toList = .plain msg →
            (Edit (demoEnv demoEditorChange) "f".toList demoReject demoFs).err
              = some (.plain "invalid".toList))
        ∧ (Edit (demoEnv demoEditorChange) "f".toList demoReject demoFs).err.map GoError.Error
          = some (GoError.plain "invalid".toList).Error) :=
  Edit_validation_rejected (demoEnv demoEditorChange) "f".toList demoReject demoFs [1, 2]
    [1, 2, 3] 0o640 (.plain "invalid".toList) (demo_ready _) rfl rfl (by decide) rfl

/-- Counterexample to C2 as stated, at two inputs. First: the editor changes
the bytes, `validateFunc` returns the error `invalid`, and the removal of the
temporary file fails: the error returned is the one of the removal, not the
validation error. Second: nothing fails but `validateFunc` returns an errorz
wrapper: the error returned is the wrapped error, not the wrapper. -/
theorem Edit_validation_rejected_counterexample :
    (demoReject [1, 2, 3] = .err (.plain "invalid".toList)
      ∧ (Edit (demoEnvRemoveFails demoEditorChange) "f".toList demoReject demoFs).err
          = some (.plain "remove failed".toList)
      ∧ (Edit (demoEnvRemoveFails demoEditorChange) "f".toList demoReject demoFs).err
          ≠ some (.plain "invalid".toList))
    ∧ (demoRejectWrapped [1, 2, 3] = .err (.wrapped (.plain "invalid".toList))
      ∧ (Edit (demoEnv demoEditorChange) "f".toList demoRejectWrapped demoFs).err
          = some (.plain "invalid".toList)
      ∧ (Edit (demoEnv demoEditorChange) "f".toList demoRejectWrapped demoFs).err
          ≠ some (.wrapped (.plain "invalid".toList))) := by
  decide

/-- Amended C3. No-op outcome of `Edit`: the target holds bytes `o`, the
temporary file is created and populated without error, and the editor returns
normally leaving the temporary file byte-identical to `o`. Then `validateFunc`
is invoked zero times, no write to the target is issued, and the target is as
it was; and if moreover the temporary file is read back and removed without
error, `Edit` returns `(o, false, nil)`. -/
theorem Edit_unchanged (env : Env) (filePath : GoString)
    (validateFunc : Bytes → ValidateOutcome) (fs : FileSystem) (o : Bytes) (m : Nat)
    (hready : Ready env filePath fs o m)
    (hed : env.DefaultEditor env.tmpPath (some o) = ⟨o, none⟩) :
    validateCalls (Edit env filePath validateFunc fs).trace = 0
    ∧ writesTo (Edit env filePath validateFunc fs).trace filePath = []
    ∧ (Edit env filePath validateFunc fs).fs filePath = some ⟨o, m⟩
    ∧ (env.faults.readTemp = none → env.faults.removeTemp = none →
        (Edit env filePath validateFunc fs).contents = some o
        ∧ (Edit env filePath validateFunc fs).isChanged = false
        ∧ (Edit env filePath validateFunc fs).err = none) := by
  have hpath := Ready_paths hready
  obtain ⟨hf, ht, h1, h2, h3, h4⟩ := hready
  cases hrt : env.faults.readTemp <;> cases hrm : env.faults.removeTemp <;>
    simp [Edit, Edit.body, os.Stat, filez.MustReadFile, filez.WithMustWriteTempFile,
      filez.MustWriteTempFile, Edit.closure, callEditor, callValidate, ioutil.WriteFile,
      os.Remove, World.log, FileSystem.put, FileSystem.unlink, errorz.MaybeMustWrap,
      errorz.MaybeWrapRecover, writesTo, validateCalls, hpath.symm,
      errorz.Wrap, errorz.Unwrap, GoError.Error, *]

/-- Witness for amended C3: the scenario of `TestEdit_Ok_Unchanged`. -/
theorem Edit_unchanged_witness :
    validateCalls (Edit (demoEnv demoEditorKeep) "f".toList demoAccept demoFs).trace = 0
    ∧ writesTo (Edit (demoEnv demoEditorKeep) "f".toList demoAccept demoFs).trace "f".toList
        = []
    ∧ (Edit (demoEnv demoEditorKeep) "f".toList demoAccept demoFs).fs "f".toList
        = some ⟨[1, 2], 0o640⟩
    ∧ ((demoEnv demoEditorKeep).faults.readTemp = none →
        (demoEnv demoEditorKeep).faults.removeTemp = none →
        (Edit (demoEnv demoEditorKeep) "f".toList demoAccept demoFs).contents = some [1, 2]
        ∧ (Edit (demoEnv demoEditorKeep) "f".toList demoAccept demoFs).isChanged = false
        ∧ (Edit (demoEnv demoEditorKeep) "f".toList demoAccept demoFs).err = none) :=
  Edit_unchanged (demoEnv demoEditorKeep) "f".toList demoAccept demoFs [1, 2] 0o640
    (demo_ready _) rfl

/-- Counterexample to C3 as stated: the target holds bytes 1 2, the editor
returns normally leaving the temporary file byte-identical, and the removal of
the temporary file fails: `Edit` returns `(nil, false, err)` with a non-nil
error instead of `(o, false, nil)`. -/
theorem Edit_unchanged_counterexample :
    demoFs "f".toList = some ⟨[1, 2], 0o640⟩
    ∧ (demoEnvRemoveFails demoEditorKeep).DefaultEditor "t".toList (some [1, 2])
        = ⟨[1, 2], none⟩
    ∧ (Edit (demoEnvRemoveFails demoEditorKeep) "f".toList demoAccept demoFs).contents = none
    ∧ (Edit (demoEnvRemoveFails demoEditorKeep) "f".toList demoAccept demoFs).err
        = some (.plain "remove failed".toList) := by
  decide

/-- Amended C4. Editor-failure safety of `Edit`: the target holds bytes `o`,
the temporary file is created and populated without error, and the editor
panics with the error `e`, whatever bytes it left in the temporary file. Then
`Edit` returns nil contents and `isChanged = false`, `validateFunc` is invoked
zero times, and the target is as it was; and if moreover the removal of the
temporary file succeeds, the error returned carries the message of `e`. -/
theorem Edit_editor_failed (env : Env) (filePath : GoString)
    (validateFunc : Bytes → ValidateOutcome) (fs : FileSystem) (o : Bytes) (m : Nat)
    (e : GoError) (hready : Ready env filePath fs o m)
    (hed : (env.DefaultEditor env.tmpPath (some o)).panic = some (.error e)) :
    (Edit env filePath validateFunc fs).contents = none
    ∧ (Edit env filePath validateFunc fs).isChanged = false
    ∧ validateCalls (Edit env filePath validateFunc fs).trace = 0
    ∧ (Edit env filePath validateFunc fs).fs filePath = some ⟨o, m⟩
    ∧ (env.faults.removeTemp = none →
        (Edit env filePath validateFunc fs).err.map GoError.Error = some e.Error) := by
  have hpath := Ready_paths hready
  obtain ⟨hf, ht, h1, h2, h3, h4⟩ := hready
  rcases hrun : env.DefaultEditor env.tmpPath (some o) with ⟨c, pv⟩
  rw [hrun] at hed
  simp only at hed
  subst hed
  cases hrm : env.faults.removeTemp <;> cases e <;>
    simp [Edit, Edit.body, os.Stat, filez.MustReadFile, filez.WithMustWriteTempFile,
      filez.MustWriteTempFile, Edit.closure, callEditor, callValidate, ioutil.WriteFile,
      os.Remove, World.log, FileSystem.put, FileSystem.unlink, errorz.MaybeMustWrap,
      errorz.MaybeWrapRecover, writesTo, validateCalls, hpath.symm,
      errorz.Wrap, errorz.Unwrap, GoError.Error, *]

/-- Witness for amended C4: the scenario of `TestEdit_Err_Panic`. -/
theorem Edit_editor_failed_witness :
    (Edit (demoEnv demoEditorPanic) "f".toList demoAccept demoFs).contents = none
    ∧ (Edit (demoEnv demoEditorPanic) "f".toList demoAccept demoFs).isChanged = false
    ∧ validateCalls (Edit (demoEnv demoEditorPanic) "f".toList demoAccept demoFs).trace = 0
    ∧ (Edit (demoEnv demoEditorPanic) "f".toList demoAccept demoFs).fs "f".toList
        = some ⟨[1, 2], 0o640⟩
    ∧ ((demoEnv demoEditorPanic).faults.removeTemp = none →
        (Edit (demoEnv demoEditorPanic) "f".toList demoAccept demoFs).err.map GoError.Error
          = some (GoError.wrapped (.plain "edit error".toList)).Error) :=
  Edit_editor_failed (demoEnv demoEditorPanic) "f".toList demoAccept demoFs [1, 2] 0o640
    (.wrapped (.plain "edit error".toList)) (demo_ready _) rfl

/-- Counterexample to C4 as stated: the editor panics with the error
`edit error` and the removal of the temporary file fails: the error returned
carries the message of the removal failure, not `edit error`. -/
theorem Edit_editor_failed_counterexample :
    ((demoEnvRemoveFails demoEditorPanic).DefaultEditor "t".toList (some [1, 2])).panic
        = some (.error (.wrapped (.plain "edit error".toList)))
    ∧ (Edit (demoEnvRemoveFails demoEditorPanic) "f".toList demoAccept demoFs).err.map
        GoError.Error = some "remove failed".toList
    ∧ (Edit (demoEnvRemoveFails demoEditorPanic) "f".toList demoAccept demoFs).err.map
        GoError.Error ≠ some (GoError.wrapped (.plain "edit error".toList)).Error := by
  decide

/-! ## Every path of `Edit` at once -/

set_option maxHeartbeats 4000000 in
theorem Edit_summary (env : Env) (filePath : GoString)
    (validateFunc : Bytes → ValidateOutcome) (fs : FileSystem) :
    Summary env filePath validateFunc fs (Edit env filePath validateFunc fs) := by
  unfold Summary
  rcases hs : env.faults.stat with _ | e
  rcases hf : fs filePath with _ | ⟨o, m⟩
  swap
  rcases hr : env.faults.readTarget with _ | e
  rcases hc : env.faults.createTemp with _ | e
  rcases ht : fs env.tmpPath with _ | g
  have hpath : env.tmpPath ≠ filePath := by
    intro h
    rw [h] at ht
    rw [ht] at hf
    cases hf
  have hpath2 : filePath ≠ env.tmpPath := fun h => hpath h.symm
  rcases hp : env.faults.populateTemp with _ | ⟨e, residue⟩
  rcases hed : env.DefaultEditor env.tmpPath (some o) with ⟨n, _ | v⟩
  rcases hrt : env.faults.readTemp with _ | e
  by_cases heq : o = n
  swap
  rcases hv : validateFunc n with _ | e | v
  rcases hw : env.faults.writeTarget with _ | ⟨e, _ | residue⟩
  all_goals rcases hrm : env.faults.removeTemp with _ | erm
  all_goals try rcases v with e | text
  all_goals try subst heq
  all_goals
    simp [Edit, Edit.body, os.Stat, filez.MustReadFile, filez.WithMustWriteTempFile,
      filez.MustWriteTempFile, Edit.closure, callEditor, callValidate, ioutil.WriteFile,
      os.Remove, errorz.MaybeMustWrap, errorz.MaybeWrapRecover,
      errNotExist, errExist, anyStepFailed, stepFailed, stepSucceeded, writesTo, editorRuns,
      World.log, FileSystem.put, FileSystem.unlink, and_assoc, *]
  all_goals exact ⟨n, fun h => heq h.symm, rfl, hv, rfl⟩

/-- C6. Uniform failure shape of `Edit`: no call of `Edit` propagates a panic
to its caller, and every call in which a step fails (the stat or the read of
the target, the creation, population or removal of the temporary file, the
editor, the read-back, `validateFunc` returning an error or panicking, the
final write) returns nil contents, `isChanged = false` and a non-nil error,
whatever the named results held before the failure. -/
theorem Edit_failure_shape (env : Env) (filePath : GoString)
    (validateFunc : Bytes → ValidateOutcome) (fs : FileSystem) :
    (Edit env filePath validateFunc fs).propagated = none
    ∧ (anyStepFailed (Edit env filePath validateFunc fs).trace = true →
        (Edit env filePath validateFunc fs).contents = none
        ∧ (Edit env filePath validateFunc fs).isChanged = false
        ∧ (Edit env filePath validateFunc fs).err ≠ none) := by
  obtain ⟨h1, h2, h3, -⟩ := Edit_summary env filePath validateFunc fs
  refine ⟨h1, fun hfail => ?_⟩
  rw [h2] at hfail
  obtain ⟨a, b, c⟩ := h3 hfail
  refine ⟨a, b, fun hnone => ?_⟩
  rw [hnone] at c
  cases c

/-- Witness for C6: the editor changes the bytes, validation succeeds, the
write succeeds and assigns the named results, and then the removal of the
temporary file fails. -/
theorem Edit_failure_shape_witness :
    anyStepFailed (Edit (demoEnvRemoveFails demoEditorChange) "f".toList demoAccept
        demoFs).trace = true
    ∧ stepSucceeded (Edit (demoEnvRemoveFails demoEditorChange) "f".toList demoAccept
        demoFs).trace .writeTarget = true
    ∧ (Edit (demoEnvRemoveFails demoEditorChange) "f".toList demoAccept demoFs).contents = none
    ∧ (Edit (demoEnvRemoveFails demoEditorChange) "f".toList demoAccept demoFs).isChanged
        = false
    ∧ (Edit (demoEnvRemoveFails demoEditorChange) "f".toList demoAccept demoFs).err ≠ none :=
  ⟨by decide, by decide,
    (Edit_failure_shape (demoEnvRemoveFails demoEditorChange) "f".toList demoAccept
      demoFs).2 (by decide)⟩

/-- Counterexample to C7 as stated: the editor changes the bytes 1 2 into
1 2 3, validation succeeds, the write succeeds, and only the removal of the
temporary file fails. `Edit` returns an error, and the target holds 1 2 3,
not its bytes of before the call. -/
theorem Edit_tempfile_failure_counterexample :
    stepFailed (Edit (demoEnvRemoveFails demoEditorChange) "f".toList demoAccept
        demoFs).trace .removeTemp = true
    ∧ (Edit (demoEnvRemoveFails demoEditorChange) "f".toList demoAccept demoFs).err ≠ none
    ∧ demoFs "f".toList = some ⟨[1, 2], 0o640⟩
    ∧ (Edit (demoEnvRemoveFails demoEditorChange) "f".toList demoAccept demoFs).fs "f".toList
        = some ⟨[1, 2, 3], 0o640⟩
    ∧ (Edit (demoEnvRemoveFails demoEditorChange) "f".toList demoAccept demoFs).fs "f".toList
        ≠ demoFs "f".toList := by
  decide

/-- Amended C7. Temp-file failure and the target: in every call of `Edit` in
which the creation, the population or the removal of the temporary file
fails, `Edit` returns an error. The target is as before the call when the
creation or the population failed, and also when the removal failed provided
`Edit` had issued no write to the target. `Edit` issues a write to the target
only when the editor returned normally leaving bytes `n` different from the
original bytes `o` and `validateFunc` returned nil on `n`; it is then the one
write of `n`, and when it succeeded the target holds `n` with its mode
unchanged. -/
theorem Edit_tempfile_failure (env : Env) (filePath : GoString)
    (validateFunc : Bytes → ValidateOutcome) (fs : FileSystem)
    (hfail : stepFailed (Edit env filePath validateFunc fs).trace .createTemp = true
      ∨ stepFailed (Edit env filePath validateFunc fs).trace .populateTemp = true
      ∨ stepFailed (Edit env filePath validateFunc fs).trace .removeTemp = true) :
    (Edit env filePath validateFunc fs).err ≠ none
    ∧ (stepFailed (Edit env filePath validateFunc fs).trace .createTemp = true
        ∨ stepFailed (Edit env filePath validateFunc fs).trace .populateTemp = true →
        (Edit env filePath validateFunc fs).fs filePath = fs filePath)
    ∧ (writesTo (Edit env filePath validateFunc fs).trace filePath = [] →
        (Edit env filePath validateFunc fs).fs filePath = fs filePath)
    ∧ (writesTo (Edit env filePath validateFunc fs).trace filePath ≠ [] →
        ∃ o m n failed, fs filePath = some ⟨o, m⟩ ∧ n ≠ o
          ∧ env.DefaultEditor env.tmpPath (some o) = ⟨n, none⟩
          ∧ validateFunc n = .ok
          ∧ writesTo (Edit env filePath validateFunc fs).trace filePath
              = [⟨.writeTarget, filePath, n, failed⟩]
          ∧ (failed = false →
              (Edit env filePath validateFunc fs).fs filePath = some ⟨n, m⟩)) := by
  obtain ⟨-, h2, h3, h4, h5, h6, -⟩ := Edit_summary env filePath validateFunc fs
  have hany : anyStepFailed (Edit env filePath validateFunc fs).trace = true := by
    simp only [stepFailed, List.any_eq_true, Bool.and_eq_true, decide_eq_true_eq] at hfail
    simp only [anyStepFailed, List.any_eq_true]
    rcases hfail with ⟨ev, hm, -, hf⟩ | ⟨ev, hm, -, hf⟩ | ⟨ev, hm, -, hf⟩ <;> exact ⟨ev, hm, hf⟩
  rw [h2] at hany
  refine ⟨fun hnone => ?_, fun hcp => h4 (h5 hcp), h4, h6⟩
  have := (h3 hany).2.2
  rw [hnone] at this
  cases this

/-- Witness for amended C7: the editor changes the bytes, validation
succeeds, the write succeeds, and the removal of the temporary file fails. -/
theorem Edit_tempfile_failure_witness :
    stepFailed (Edit (demoEnvRemoveFails demoEditorChange) "f".toList demoAccept
        demoFs).trace .removeTemp = true
    ∧ writesTo (Edit (demoEnvRemoveFails demoEditorChange) "f".toList demoAccept
        demoFs).trace "f".toList ≠ []
    ∧ (Edit (demoEnvRemoveFails demoEditorChange) "f".toList demoAccept demoFs).err ≠ none
    ∧ (stepFailed (Edit (demoEnvRemoveFails demoEditorChange) "f".toList demoAccept
          demoFs).trace .createTemp = true
        ∨ stepFailed (Edit (demoEnvRemoveFails demoEditorChange) "f".toList demoAccept
          demoFs).trace .populateTemp = true →
        (Edit (demoEnvRemoveFails demoEditorChange) "f".toList demoAccept demoFs).fs
          "f".toList = demoFs "f".toList)
    ∧ (writesTo (Edit (demoEnvRemoveFails demoEditorChange) "f".toList demoAccept
          demoFs).trace "f".toList = [] →
        (Edit (demoEnvRemoveFails demoEditorChange) "f".toList demoAccept demoFs).fs
          "f".toList = demoFs "f".toList)
    ∧ (writesTo (Edit (demoEnvRemoveFails demoEditorChange) "f".toList demoAccept
          demoFs).trace "f".toList ≠ [] →
        ∃ o m n failed, demoFs "f".toList = some ⟨o, m⟩ ∧ n ≠ o
          ∧ (demoEnvRemoveFails demoEditorChange).DefaultEditor
              (demoEnvRemoveFails demoEditorChange).tmpPath (some o) = ⟨n, none⟩
          ∧ demoAccept n = .ok
          ∧ writesTo (Edit (demoEnvRemoveFails demoEditorChange) "f".toList demoAccept
              demoFs).trace "f".toList = [⟨.writeTarget, "f".toList, n, failed⟩]
          ∧ (failed = false →
              (Edit (demoEnvRemoveFails demoEditorChange) "f".toList demoAccept demoFs).fs
                "f".toList = some ⟨n, m⟩)) :=
  ⟨by decide, by decide,
    Edit_tempfile_failure (demoEnvRemoveFails demoEditorChange) "f".toList demoAccept demoFs
      (Or.inr (Or.inr (by decide)))⟩

/-- Counterexample to C8 as stated, at two inputs. First: the temporary file
is created, the editor panics, and the removal of the temporary file fails.
Second: the editor changes the bytes, validation and the write succeed, and
the removal fails. In both the temporary file is on disk once `Edit` has
returned. -/
theorem Edit_tempfile_cleanup_counterexample :
    (stepSucceeded (Edit (demoEnvRemoveFails demoEditorPanic) "f".toList demoAccept
        demoFs).trace .createTemp = true
      ∧ stepFailed (Edit (demoEnvRemoveFails demoEditorPanic) "f".toList demoAccept
        demoFs).trace .editor = true
      ∧ (Edit (demoEnvRemoveFails demoEditorPanic) "f".toList demoAccept demoFs).fs
          (demoEnvRemoveFails demoEditorPanic).tmpPath = some ⟨[9], 0o600⟩)
    ∧ (stepSucceeded (Edit (demoEnvRemoveFails demoEditorChange) "f".toList demoAccept
        demoFs).trace .createTemp = true
      ∧ stepSucceeded (Edit (demoEnvRemoveFails demoEditorChange) "f".toList demoAccept
        demoFs).trace .writeTarget = true
      ∧ (Edit (demoEnvRemoveFails demoEditorChange) "f".toList demoAccept demoFs).fs
          (demoEnvRemoveFails demoEditorChange).tmpPath = some ⟨[1, 2, 3], 0o600⟩) := by
  decide

/-- Amended C8. Temp-file cleanup: in every call of `Edit` that gets as far
as creating its temporary file, the temporary file does not exist once `Edit`
has returned if and only if neither the population nor the removal of the
temporary file failed, whether the editor, the validation or the write to the
target failed or not. The temporary path is not the target path, every run of
the editor is on the temporary path with the file there holding the original
bytes of the target, and when the population did not fail the editor was run
exactly once. -/
theorem Edit_tempfile_cleanup (env : Env) (filePath : GoString)
    (validateFunc : Bytes → ValidateOutcome) (fs : FileSystem)
    (hcreated : stepSucceeded (Edit env filePath validateFunc fs).trace .createTemp = true) :
    env.tmpPath ≠ filePath
    ∧ ((Edit env filePath validateFunc fs).fs env.tmpPath = none ↔
        stepFailed (Edit env filePath validateFunc fs).trace .populateTemp = false
        ∧ stepFailed (Edit env filePath validateFunc fs).trace .removeTemp = false)
    ∧ ∃ o m, fs filePath = some ⟨o, m⟩
        ∧ (∀ ev ∈ editorRuns (Edit env filePath validateFunc fs).trace,
            ev.path = env.tmpPath ∧ ev.data = o)
        ∧ (stepFailed (Edit env filePath validateFunc fs).trace .populateTemp = false →
            ∃ failed, editorRuns (Edit env filePath validateFunc fs).trace
              = [⟨.editor, env.tmpPath, o, failed⟩]) := by
  obtain ⟨-, -, -, -, -, -, h7⟩ := Edit_summary env filePath validateFunc fs
  exact h7 hcreated

/-- Witness for amended C8: the scenario of `TestEdit_Err_Invalid`, which
ends in a validation failure, and where the temporary file is gone. -/
theorem Edit_tempfile_cleanup_witness :
    (Edit (demoEnv demoEditorChange) "f".toList demoReject demoFs).fs
        (demoEnv demoEditorChange).tmpPath = none
    ∧ (demoEnv demoEditorChange).tmpPath ≠ "f".toList
    ∧ ((Edit (demoEnv demoEditorChange) "f".toList demoReject demoFs).fs
          (demoEnv demoEditorChange).tmpPath = none ↔
        stepFailed (Edit (demoEnv demoEditorChange) "f".toList demoReject demoFs).trace
            .populateTemp = false
        ∧ stepFailed (Edit (demoEnv demoEditorChange) "f".toList demoReject demoFs).trace
            .removeTemp = false)
    ∧ ∃ o m, demoFs "f".toList = some ⟨o, m⟩
        ∧ (∀ ev ∈ editorRuns (Edit (demoEnv demoEditorChange) "f".toList demoReject
              demoFs).trace,
            ev.path = (demoEnv demoEditorChange).tmpPath ∧ ev.data = o)
        ∧ (stepFailed (Edit (demoEnv demoEditorChange) "f".toList demoReject demoFs).trace
              .populateTemp = false →
            ∃ failed, editorRuns (Edit (demoEnv demoEditorChange) "f".toList demoReject
                demoFs).trace
              = [⟨.editor, (demoEnv demoEditorChange).tmpPath, o, failed⟩]) :=
  ⟨by decide, Edit_tempfile_cleanup (demoEnv demoEditorChange) "f".toList demoReject demoFs
    (by decide)⟩

/-! ## The external-command editor -/

/-- C9. Argument order of `ShellEditor.Edit`: for every `ShellEditor` with
command `c` and parameters `ps` and every file path `p`, the program launched
is `c`, with argument list exactly `ps` followed by `p`. -/
theorem ShellEditor_Edit_argv (e : ShellEditor) (p : GoString) (exec : shellz.Exec)
    (file : Option Bytes) :
    e.Edit exec p file = (e.command p).MustRun exec file
    ∧ (e.command p).cmd = e.Command
    ∧ (e.command p).params = e.Params ++ [p]
    ∧ (e.command p).argv = e.Command :: (e.Params ++ [p]) := by
  simp [ShellEditor.Edit, ShellEditor.command, shellz.NewCommand,
    shellz.Command.AddParamsString, shellz.Command.SetLogfNil, shellz.Command.SetStdin,
    shellz.Command.SetStdout, shellz.Command.SetStderr, shellz.Command.argv]

end editz
